import Mathlib

/-!
# Verification of the Fly-Pie menu daemon core (src/daemon/Menu.js)

This file gives a shallow embedding of the interaction core implemented in
src/daemon/Menu.js: the recursive angle solver (_updateItemAngles), the
depth-first id assignment (_updateItemIDs), the show request (show), the
monitor clamp (_clampToToMonitor), the hide logic (_hide) and the two
selection-event handlers (child-selected-event, parent-selected-event).

Modelling conventions:
* JavaScript numbers are modelled by the rationals; all angle arithmetic in
  the source is plain degree arithmetic on such numbers.
* A menu structure node is an Item; a field that may be absent on the
  JavaScript object ("angle" in item, item.id falsy, ...) is an Option.
  An absent or undefined children array behaves exactly like an empty one in
  every use site of Menu.js (forEach, length checks, the truthiness guard
  if (item.children) followed by loops over it), so children is a plain list.
* The JavaScript % operator on the nonnegative numbers that reach it in
  Menu.js agrees with floor-based mod, see fmod360.
* Clutter actors are modelled only so far as Menu.js mutates state that the
  claims mention: the item states, the ids, the selection chain and the menu
  id.  Purely visual data (translations, traces, wedge geometry, redraw,
  pointer warping) is not part of the state.
-/

/-- JavaScript a % 360 for the nonnegative operands produced in Menu.js
(fixed angles below 360 plus nonnegative wedge offsets); on nonnegative
input the JavaScript remainder equals the floor-based remainder. -/
def fmod360 (a : ℚ) : ℚ := a - 360 * ((Int.floor (a / 360) : ℤ) : ℚ)

/-- A node of the JSON menu structure handed to show: name, icon, angle and
id can each be absent, children is the (possibly empty) list of sub-items. -/
inductive Item where
  | mk (name : Option String) (icon : Option String) (angle : Option ℚ)
      (id : Option String) (children : List Item)

def Item.name : Item → Option String
  | Item.mk n _ _ _ _ => n

def Item.icon : Item → Option String
  | Item.mk _ i _ _ _ => i

def Item.angle : Item → Option ℚ
  | Item.mk _ _ a _ _ => a

def Item.id : Item → Option String
  | Item.mk _ _ _ i _ => i

def Item.children : Item → List Item
  | Item.mk _ _ _ _ c => c

/-! ## The angle solver (Menu.js _updateItemAngles, lines 520-637)

The solver works on one level of sibling items at a time.  We separate the
computation on the list of angle attributes of one level (solveLevel and its
loops) from the structural recursion over the item tree
(updateAnglesItem / updateAnglesList / updateItemAngles). -/

/-- Menu.js lines 529-534: collect the fixed angles together with their list
index, in list order.  An item participates exactly when it carries an angle
attribute whose value is at least 0; a present but negative angle is skipped
just like an absent one. -/
def collectFixed (angles : List (Option ℚ)) (i : ℕ) : List (ℚ × ℕ) :=
  match angles with
  | [] => []
  | none :: rest => collectFixed rest (i + 1)
  | some a :: rest =>
    if 0 ≤ a then (a, i) :: collectFixed rest (i + 1) else collectFixed rest (i + 1)

/-- Menu.js lines 536-545: the fixed angles must increase strictly in list
order and lie in [0, 360).  prev carries the previously seen fixed angle. -/
def fixedAnglesOK (prev : Option ℚ) (fixedAngles : List (ℚ × ℕ)) : Bool :=
  match fixedAngles with
  | [] => true
  | (a, _) :: rest =>
    (match prev with
     | none => true
     | some p => decide (p < a)) &&
    (decide (0 ≤ a) && decide (a < 360)) && fixedAnglesOK (some a) rest

/-- Menu.js lines 547-555: a fixed angle closer than 1 degree to the parent
link angle is a collision. -/
def parentCollides (parentAngle : Option ℚ) (fixedAngles : List (ℚ × ℕ)) : Bool :=
  match parentAngle with
  | none => false
  | some pa => fixedAngles.any (fun p => decide (|p.1 - pa| < 1))

/-- Menu.js lines 610-624, the while loop of one wedge.  index walks from
(wedgeBeginIndex + 1) % n upwards mod n until it reaches wedgeEndIndex; each
visited position receives the next gap multiple, with one extra gap skipped
at the first slot whose upper half passes the parent angle.  parentAngle is
only read when parentGapRequired is true (the caller passes 0 when there is
no parent link, in which case parentGapRequired starts false).  The source
loop terminates after at most n - 1 steps because wedgeEndIndex < n and index
steps by +1 mod n, so running it on n units of fuel is exact. -/
def innerLoop (n wedgeEndIndex : ℕ) (wedgeBeginAngle wedgeItemGap parentAngle : ℚ)
    (index count : ℕ) (parentGapRequired : Bool) (angles : List (Option ℚ))
    (fuel : ℕ) : List (Option ℚ) :=
  match fuel with
  | 0 => angles
  | fuel + 1 =>
    if index = wedgeEndIndex then angles
    else
      let itemAngle := wedgeBeginAngle + wedgeItemGap * (count : ℚ)
      let step : ℕ × ℚ × Bool :=
        if parentGapRequired && decide (0 < itemAngle + wedgeItemGap / 2 - parentAngle) then
          (count + 1, wedgeBeginAngle + wedgeItemGap * ((count : ℚ) + 1), false)
        else (count, itemAngle, parentGapRequired)
      innerLoop n wedgeEndIndex wedgeBeginAngle wedgeItemGap parentAngle
        ((index + 1) % n) (step.1 + 1) step.2.2
        (angles.set index (some (fmod360 step.2.1))) fuel

/-- Menu.js lines 571-625, the body of one iteration of the for loop over the
fixed angles.  Returns the updated angle list together with the (possibly
+360 adjusted) parent angle, because the adjustment of the parentAngle
variable persists into the following iterations.  The item count is computed
as in the source; the JavaScript expression
(wedgeEndIndex - wedgeBeginIndex - 1 + n) % n is nonnegative because
wedgeBeginIndex < n, so it equals the natural-number computation below. -/
def wedgeStep (fixedAngles : List (ℚ × ℕ)) (i : ℕ) (angles : List (Option ℚ))
    (parentAngle : Option ℚ) : List (Option ℚ) × Option ℚ :=
  let n := angles.length
  let wedgeBeginIndex := (fixedAngles.getD i (0, 0)).2
  let wedgeBeginAngle := (fixedAngles.getD i (0, 0)).1
  let wedgeEndIndex := (fixedAngles.getD ((i + 1) % fixedAngles.length) (0, 0)).2
  let wedgeEndAngle0 := (fixedAngles.getD ((i + 1) % fixedAngles.length) (0, 0)).1
  let wedgeEndAngle :=
    if wedgeEndAngle0 ≤ wedgeBeginAngle then wedgeEndAngle0 + 360 else wedgeEndAngle0
  let wedgeItemCount0 := (wedgeEndIndex + n - (wedgeBeginIndex + 1)) % n
  let parentAngle2 : Option ℚ :=
    match parentAngle with
    | none => none
    | some pa => if pa < wedgeBeginAngle then some (pa + 360) else some pa
  let parentInWedge : Bool :=
    match parentAngle2 with
    | none => false
    | some pa => decide (wedgeBeginAngle < pa) && decide (pa < wedgeEndAngle)
  let wedgeItemCount := if parentInWedge then wedgeItemCount0 + 1 else wedgeItemCount0
  let wedgeItemGap := (wedgeEndAngle - wedgeBeginAngle) / ((wedgeItemCount : ℚ) + 1)
  (innerLoop n wedgeEndIndex wedgeBeginAngle wedgeItemGap (parentAngle2.getD 0)
      ((wedgeBeginIndex + 1) % n) 1 parentInWedge angles n,
   parentAngle2)

/-- The for loop over the fixed angles (Menu.js line 571): starting at
iteration i with fuel = fixedAngles.length - i iterations left. -/
def wedgeLoop (fixedAngles : List (ℚ × ℕ)) (fuel i : ℕ) (angles : List (Option ℚ))
    (parentAngle : Option ℚ) : List (Option ℚ) :=
  match fuel with
  | 0 => angles
  | fuel + 1 =>
    let st := wedgeStep fixedAngles i angles parentAngle
    wedgeLoop fixedAngles fuel (i + 1) st.1 st.2

/-- Menu.js lines 557-566: when no item carries a fixed angle, the first
item receives 90 degrees, or 270 degrees when a parent link exists at an
angle below 180 degrees. -/
def firstFixedAngle (parentAngle : Option ℚ) : ℚ :=
  match parentAngle with
  | none => 90
  | some pa => if pa < 180 then 270 else 90

/-- One level of _updateItemAngles (Menu.js lines 520-625), acting on the
list of angle attributes of the sibling items.  Returns the success flag and
the updated attribute list; on failure the attributes are untouched, exactly
as in the source where every return false precedes the first mutation. -/
def solveLevel (angles : List (Option ℚ)) (parentAngle : Option ℚ) :
    Bool × List (Option ℚ) :=
  if angles.length = 0 then (true, angles)
  else
    let fixedAngles := collectFixed angles 0
    if fixedAnglesOK none fixedAngles = false then (false, angles)
    else if parentCollides parentAngle fixedAngles then (false, angles)
    else
      let fixedAngles2 :=
        if fixedAngles.length = 0 then [(firstFixedAngle parentAngle, 0)] else fixedAngles
      let angles2 :=
        if fixedAngles.length = 0 then angles.set 0 (some (firstFixedAngle parentAngle))
        else angles
      (true, wedgeLoop fixedAngles2 fixedAngles2.length 0 angles2 parentAngle)

mutual
/-- The per-item part of the recursion at the end of _updateItemAngles
(Menu.js lines 627-634): the item receives its solved angle a, then the
recursive call _updateItemAngles(item.children, (item.angle + 180) % 360) is
inlined: its level computation runs on the children and, when that level
fails, the children are left as supplied while the false result of the
callback is discarded by items.forEach, so the failure never propagates
(the return false of the source at line 632 only exits the forEach callback). -/
def updateAnglesItem (it : Item) (a : Option ℚ) : Item :=
  match it with
  | Item.mk name icon _ idOpt children =>
    let pa := fmod360 (a.getD 0 + 180)
    let r := solveLevel (children.map Item.angle) (some pa)
    let sub := if r.1 then updateAnglesList children r.2 else children
    Item.mk name icon a idOpt sub

/-- Writing one level of solved angles into the items, in list order
(Menu.js mutates items[index].angle in place; the solved attribute list has
the same length as the item list, the defensive second case never fires). -/
def updateAnglesList (items : List Item) (angles : List (Option ℚ)) : List Item :=
  match items, angles with
  | [], _ => []
  | items, [] => items
  | it :: rest, a :: as => updateAnglesItem it a :: updateAnglesList rest as
end

/-- Menu.js _updateItemAngles (lines 520-637) on a list of sibling items:
solve the level, on failure report false with the items untouched, on
success write the angles and recurse into all children (where deeper
failures are swallowed, see updateAnglesItem). -/
def updateItemAngles (items : List Item) (parentAngle : Option ℚ) : Bool × List Item :=
  let r := solveLevel (items.map Item.angle) parentAngle
  if r.1 then (true, updateAnglesList items r.2) else (false, items)

/-! ## Id assignment (Menu.js _updateItemIDs, lines 496-512) -/

/-- parentID + "/" + i, respecting the JavaScript truthiness test
if (parentID): an absent or empty parent id yields "/" + i. -/
def childID (parentID : Option String) (i : ℕ) : String :=
  match parentID with
  | none => "/" ++ toString i
  | some p => if p = "" then "/" ++ toString i else p ++ "/" ++ toString i

mutual
/-- One item of _updateItemIDs: newID is the id the item ends up with (its
own id when that is truthy, else the assigned path); the children are then
processed with it as parent id.  When the item already carried a truthy id
the assignment below stores that same value back, which is what the source
leaves in place. -/
def updateIDsItem (it : Item) (newID : String) : Item :=
  match it with
  | Item.mk name icon angle _ children =>
    Item.mk name icon angle (some newID) (updateIDsList children (some newID) 0)

/-- Menu.js _updateItemIDs over one sibling list: i is the running list
index, parentID the id of the enclosing item (absent at the top call). -/
def updateIDsList (items : List Item) (parentID : Option String) (i : ℕ) : List Item :=
  match items with
  | [] => []
  | it :: rest =>
    let newID : String :=
      match it.id with
      | some s => if s = "" then childID parentID i else s
      | none => childID parentID i
    updateIDsItem it newID :: updateIDsList rest parentID (i + 1)
end

/-! ## Menu items as actors (daemon/MenuItem.js is not part of src/)

The handlers in Menu.js mutate MenuItem actors through setState and read
getChildMenuItems, angle and id.  MenuItem.js itself is not under src/, so
the actor tree is modelled from the spec: a MenuItem carries id, caption,
icon, angle, one of the nine states of section 3 of the spec, and its
children.  setState(state) sets the state property of that node; the index
argument of setState and the recursive redraw only influence the visual
appearance of descendants, which is outside this model. -/

/-- Modelled from the spec: the per-item state set of section 3 (the
MenuItemState enum lives in the missing daemon/MenuItem.js). -/
inductive MenuItemState where
  | CENTER
  | CENTER_HOVERED
  | CHILD
  | CHILD_HOVERED
  | CHILD_DRAGGED
  | GRANDCHILD
  | PARENT
  | PARENT_HOVERED
  | INVISIBLE
deriving DecidableEq

/-- Modelled from the spec: a constructed MenuItem actor (daemon/MenuItem.js
is not under src/): display metadata, the solved angle, the current state
and the child actors.  Menu.js reads id, angle and getChildMenuItems and
writes the state. -/
inductive ActorTree where
  | node (id : String) (caption : String) (icon : String) (angle : ℚ)
      (state : MenuItemState) (children : List ActorTree)

def ActorTree.id : ActorTree → String
  | ActorTree.node i _ _ _ _ _ => i

def ActorTree.angle : ActorTree → ℚ
  | ActorTree.node _ _ _ a _ _ => a

def ActorTree.state : ActorTree → MenuItemState
  | ActorTree.node _ _ _ _ s _ => s

def ActorTree.children : ActorTree → List ActorTree
  | ActorTree.node _ _ _ _ _ c => c

/-- The MenuItem aliased by a selection-chain entry, identified by its path
of child indices from the root actor (the chain stores references into the
tree; paths make the aliasing explicit). -/
def getNode (t : ActorTree) (path : List ℕ) : Option ActorTree :=
  match path with
  | [] => some t
  | i :: rest =>
    match t.children[i]? with
    | some c => getNode c rest
    | none => none

/-- Modelled from the spec: item.setState(s) stores s as the state of the
addressed MenuItem; every other node keeps its fields.  On a dangling path
nothing changes (the source would throw, the handlers only address nodes
that exist). -/
def setTreeState (t : ActorTree) (path : List ℕ) (s : MenuItemState) : ActorTree :=
  match t, path with
  | ActorTree.node id cap icon angle _ children, [] =>
    ActorTree.node id cap icon angle s children
  | ActorTree.node id cap icon angle st children, i :: rest =>
    match children[i]? with
    | some c => ActorTree.node id cap icon angle st (children.set i (setTreeState c rest s))
    | none => ActorTree.node id cap icon angle st children

/-- The state of the node a path points to. -/
def getStateAt (t : ActorTree) (path : List ℕ) : Option MenuItemState :=
  (getNode t path).map ActorTree.state

/-- getChildMenuItems().length of the node a path points to. -/
def childCountAt (t : ActorTree) (path : List ℕ) : ℕ :=
  match getNode t path with
  | some c => c.children.length
  | none => 0

mutual
/-- Menu.js show, lines 422-432 (createMenuItem): copy id, caption = name,
icon and angle of each structure item into a MenuItem actor.  On the success
path of show all these attributes have been assigned, so the defaults of
getD never fire there.  Modelled from the spec as far as the initial state
goes: MenuItem.js is not under src/ and the initial state is irrelevant
because show immediately sets the root state and the chain only ever points
at nodes whose state a handler has set. -/
def createMenuItem (it : Item) : ActorTree :=
  match it with
  | Item.mk name icon angle idOpt children =>
    ActorTree.node (idOpt.getD "") (name.getD "") (icon.getD "") (angle.getD 0)
      MenuItemState.INVISIBLE (createMenuItemList children)

def createMenuItemList (items : List Item) : List ActorTree :=
  match items with
  | [] => []
  | it :: rest => createMenuItem it :: createMenuItemList rest
end

/-! ## The daemon state and the event handlers (Menu.js lines 155-360) -/

/-- The mutable fields of the Menu instance that the claims are about:
_root (null until a show succeeded and after the fade-out destroyed it),
_menuSelectionChain (paths into _root, innermost first, root last),
_menuID (null when no menu is active) and _draggedChild.  _previewMode is
kept because show stores it. -/
structure DaemonState where
  root : Option ActorTree
  menuSelectionChain : List (List ℕ)
  menuID : Option String
  draggedChild : Option (List ℕ)
  previewMode : Bool

/-- The outward notification fired by the child-selected handler
(this._onSelect(this._menuID, child.id), Menu.js line 276). -/
inductive OutEvent where
  | onSelect (menuID : Option String) (itemID : String)

/-- Menu.js _hide (lines 474-491): a no-op while no menu is active
(this._menuID == null); otherwise the menu id, the dragged child and the
selection chain are reset.  The root actor survives until the fade-out
completes (the transitions-completed handler, lines 128-133), so root is
kept. -/
def hideMenu (st : DaemonState) : DaemonState :=
  if st.menuID.isNone then st
  else
    { st with
      menuID := none
      draggedChild := none
      menuSelectionChain := [] }

/-- getChildMenuItems().length of the node addressed by a path, looked up in
the current root actor. -/
def childCountAtChain (st : DaemonState) (path : List ℕ) : ℕ :=
  match st.root with
  | some r => childCountAt r path
  | none => 0

/-- The number of children of the currently active item
(this._menuSelectionChain[0].getChildMenuItems().length). -/
def centerChildCount (st : DaemonState) : ℕ :=
  childCountAtChain st (st.menuSelectionChain.headD [])

/-- Menu.js child-selected-event handler (lines 186-282).  button1Held is
the BUTTON1_MASK bit of the pointer state.  With the button held and a
child without children the event is dropped before any mutation (lines
193-198).  Otherwise the drag is aborted, the previous center becomes
PARENT, the selected child becomes CENTER_HOVERED and is prepended to the
chain; when the child is a leaf, onSelect fires with the current menu id
and the child id, then _hide runs.  Pointer clamping, warping, the trace
idealization and the wedge reconfiguration only move actors and are outside
this model. -/
def handleChildSelected (st : DaemonState) (button1Held : Bool) (index : ℕ) :
    DaemonState × List OutEvent :=
  let parentPath := st.menuSelectionChain.headD []
  let childPath := parentPath ++ [index]
  let childChildren := childCountAtChain st childPath
  if button1Held && decide (childChildren = 0) then (st, [])
  else
    let root2 := st.root.map (fun r =>
      setTreeState (setTreeState r parentPath MenuItemState.PARENT)
        childPath MenuItemState.CENTER_HOVERED)
    let st2 : DaemonState :=
      { st with
        draggedChild := none
        root := root2
        menuSelectionChain := childPath :: st.menuSelectionChain }
    if childChildren = 0 then
      let leafID :=
        match root2 with
        | some r =>
          match getNode r childPath with
          | some c => c.id
          | none => ""
        | none => ""
      (hideMenu st2, [OutEvent.onSelect st2.menuID leafID])
    else (st2, [])

/-- Menu.js parent-selected-event handler (lines 301-349): the previous
parent (chain index 1) becomes CENTER_HOVERED, the chain is shifted, the
drag is aborted.  Clamping, warping, wedge reconfiguration and the root
translation are outside this model. -/
def handleParentSelected (st : DaemonState) : DaemonState :=
  let parentPath := st.menuSelectionChain.getD 1 []
  { st with
    root := st.root.map (fun r => setTreeState r parentPath MenuItemState.CENTER_HOVERED)
    menuSelectionChain := st.menuSelectionChain.tail
    draggedChild := none }

/-- The two navigation events claim C2 quantifies over. -/
inductive NavEvent where
  | childSelected (button1Held : Bool) (index : ℕ)
  | parentSelected

def navStep (st : DaemonState) (e : NavEvent) : DaemonState :=
  match e with
  | NavEvent.childSelected b i => (handleChildSelected st b i).1
  | NavEvent.parentSelected => handleParentSelected st

def navRun (st : DaemonState) (evs : List NavEvent) : DaemonState :=
  match evs with
  | [] => st
  | e :: rest => navRun (navStep st e) rest

/-- Validity in the sense of claim C2: a child-selected index addresses one
of the children of the current center, parent-selected requires a chain of more
than one element. -/
def validNavEvent (st : DaemonState) (e : NavEvent) : Bool :=
  match e with
  | NavEvent.childSelected _ i => decide (i < centerChildCount st)
  | NavEvent.parentSelected => decide (1 < st.menuSelectionChain.length)

def validRun (st : DaemonState) (evs : List NavEvent) : Bool :=
  match evs with
  | [] => true
  | e :: rest => validNavEvent st e && validRun (navStep st e) rest

/-- An event that does not commit a leaf selection: a child-selected event
either targets an item that has children, or arrives with the primary
button held (and is then suppressed for leaves). -/
def nonCommitting (st : DaemonState) (e : NavEvent) : Bool :=
  match e with
  | NavEvent.childSelected b i =>
    decide (childCountAtChain st ((st.menuSelectionChain.headD []) ++ [i]) ≠ 0) || b
  | NavEvent.parentSelected => true

def commitFreeRun (st : DaemonState) (evs : List NavEvent) : Bool :=
  match evs with
  | [] => true
  | e :: rest => nonCommitting st e && commitFreeRun (navStep st e) rest

/-! ## show (Menu.js lines 373-469) -/

/-- Modelled from the spec: the result of show is either one of the four
error codes of DBusInterface.errorCodes (common/DBusInterface.js is not
under src/) or, on success, the menu id that was passed in (show returns
this._menuID after assigning it). -/
inductive ShowResult where
  | eAlreadyActive
  | ePropertyMissing
  | eInvalidAngles
  | eUnknownError
  | success (menuID : String)
deriving DecidableEq

/-- The JavaScript truthiness of the stored menu id used by the guard
if (this._menuID): null and the empty string are falsy. -/
def menuIDTruthy (menuID : Option String) : Bool :=
  match menuID with
  | none => false
  | some s => decide (s ≠ "")

/-- Menu.js show (lines 373-469).  grabOK is the result of the
this._background.show(previewMode) call on the external input-capture
collaborator.  The function returns the result code, the daemon state after
the call, and the caller-supplied structure after the in-place mutations
(name/icon defaults, angle, ids).  Step by step, in source order:
AlreadyActive guard, root item list guard, destruction of a previous root,
storing the preview flag, name/icon defaults, structure.angle = 0, angle
solving (failure: InvalidAngles, with the top-level items untouched),
structure.id = "/", id assignment, input grab (failure: UnknownError),
actor creation, chain push of the root, root state CENTER_HOVERED.  The
wedge configuration and the translation of root and wedges (lines 443-466)
only position actors and are outside this model. -/
def showMenu (st : DaemonState) (menuID : String) (struct : Item)
    (previewMode grabOK : Bool) : ShowResult × DaemonState × Item :=
  if menuIDTruthy st.menuID then (ShowResult.eAlreadyActive, st, struct)
  else if struct.children.length = 0 then (ShowResult.ePropertyMissing, st, struct)
  else
    let st1 : DaemonState := { st with root := none, previewMode := previewMode }
    let name1 : Option String :=
      match struct.name with
      | none => some "root"
      | some s => some s
    let icon1 : Option String :=
      match struct.icon with
      | none => some "image-missing"
      | some s => some s
    let r := updateItemAngles struct.children none
    if r.1 = false then
      (ShowResult.eInvalidAngles, st1, Item.mk name1 icon1 (some 0) struct.id r.2)
    else
      let children2 := updateIDsList r.2 none 0
      let struct2 := Item.mk name1 icon1 (some 0) (some "/") children2
      if grabOK = false then (ShowResult.eUnknownError, st1, struct2)
      else
        let root1 := setTreeState (createMenuItem struct2) [] MenuItemState.CENTER_HOVERED
        (ShowResult.success menuID,
         { st1 with
           menuID := some menuID
           root := some root1
           menuSelectionChain := st1.menuSelectionChain ++ [[]] },
         struct2)

/-! ## The monitor clamp (Menu.js _clampToToMonitor, lines 659-697) -/

/-- The settings values and monitor geometry read by _clampToToMonitor, one
field per settings key, plus the size of the monitor currently containing
the pointer (Main.layoutManager.currentMonitor). -/
structure ClampSettings where
  wedgeInnerRadius : ℚ
  centerSize : ℚ
  centerSizeHover : ℚ
  childSize : ℚ
  childSizeHover : ℚ
  childOffset : ℚ
  childOffsetHover : ℚ
  grandchildSize : ℚ
  grandchildSizeHover : ℚ
  grandchildOffset : ℚ
  grandchildOffsetHover : ℚ
  globalScale : ℚ
  monitorWidth : ℚ
  monitorHeight : ℚ

/-- Menu.js lines 661-683: the theoretically largest extent of an item with
two levels of descendants, the larger of normal and hover values at each
level, scaled by twice the global scale. -/
def maxSizeOf (s : ClampSettings) : ℚ :=
  let centerRadius := max (s.centerSize / 2) (s.centerSizeHover / 2)
  let childRadius :=
    max (s.childSize / 2 + s.childOffset) (s.childSizeHover / 2 + s.childOffsetHover)
  let grandchildRadius :=
    max (s.childOffset + s.grandchildSize / 2 + s.grandchildOffset)
      (s.childOffsetHover + s.grandchildSizeHover / 2 + s.grandchildOffsetHover)
  max (max (max s.wedgeInnerRadius centerRadius) childRadius) grandchildRadius
    * (2 * s.globalScale)

/-- Menu.js _clampToToMonitor (lines 659-697): clamp each axis of (x, y)
into [margin + maxSize / 2, monitorSize - margin - maxSize / 2] and floor
the result (lo is the local variable min of the source). -/
def clampToMonitor (s : ClampSettings) (x y margin : ℚ) : ℤ × ℤ :=
  let lo := margin + maxSizeOf s / 2
  let maxX := s.monitorWidth - lo
  let maxY := s.monitorHeight - lo
  let posX := min (max x lo) maxX
  let posY := min (max y lo) maxY
  (Int.floor posX, Int.floor posY)

mutual
/-- Every item of the tree carries an id, recursively. -/
def allIDsSetItem : Item → Bool
  | Item.mk _ _ _ idOpt children => idOpt.isSome && allIDsSetList children

def allIDsSetList : List Item → Bool
  | [] => true
  | it :: rest => allIDsSetItem it && allIDsSetList rest
end

/-! ## Theorems -/

/-- Witness for clampToMonitor_within at a concrete configuration. -/
def witnessClampSettings : ClampSettings :=
  { wedgeInnerRadius := 0, centerSize := 0, centerSizeHover := 0, childSize := 0,
    childSizeHover := 0, childOffset := 0, childOffsetHover := 0, grandchildSize := 0,
    grandchildSizeHover := 0, grandchildOffset := 0, grandchildOffsetHover := 0,
    globalScale := 1, monitorWidth := 100, monitorHeight := 100 }

/-- The configuration refuting the literal reading of claim C7: a wedge
radius of 1 at global scale 1/4 makes the lower bound 1/4, and clamping the
origin returns floor(1/4) = 0, strictly below that bound. -/
def cexClampSettings : ClampSettings :=
  { wedgeInnerRadius := 1, centerSize := 0, centerSizeHover := 0, childSize := 0,
    childSizeHover := 0, childOffset := 0, childOffsetHover := 0, grandchildSize := 0,
    grandchildSizeHover := 0, grandchildOffset := 0, grandchildOffsetHover := 0,
    globalScale := 1 / 4, monitorWidth := 100, monitorHeight := 100 }

def witnessActiveTree : ActorTree :=
  ActorTree.node "/" "root" "image-missing" 0 MenuItemState.CENTER_HOVERED
    [ActorTree.node "/0" "A" "image-missing" 90 MenuItemState.CHILD []]

def witnessActiveState : DaemonState :=
  { root := some witnessActiveTree, menuSelectionChain := [[]], menuID := some "m0",
    draggedChild := none, previewMode := false }

/-- The daemon state while a previous menu is still fading out after hide:
no menu id, but the tree is still present. -/
def fadingState : DaemonState :=
  { root := some witnessActiveTree, menuSelectionChain := [], menuID := none,
    draggedChild := none, previewMode := false }

def badOrderItems : List Item :=
  [Item.mk none none (some 30) none [], Item.mk none none (some 10) none []]

/-- The menu tree of claim C4: the only top-level item carries no fixed
angle, its two children carry the out-of-order fixed angles 30 and 10. -/
def claim4Struct : Item :=
  Item.mk none none none none
    [Item.mk none none none none
      [Item.mk none none (some 30) none [], Item.mk none none (some 10) none []]]

def idleState : DaemonState :=
  { root := none, menuSelectionChain := [], menuID := none, draggedChild := none,
    previewMode := false }

/-- The show request of claim C1: three children without fixed angles, no
ids, no parent link. -/
def struct3 : Item :=
  Item.mk none none none none
    [Item.mk (some "A") none none none [], Item.mk (some "B") none none none [],
     Item.mk (some "C") none none none []]

/-- The selection chain invariant of claim C2, together with the path
validity that makes it inductive: the tree exists, the chain is nonempty,
its last entry is the root, every entry addresses an existing node, and the
node addressed by the first entry is in state CENTER or CENTER_HOVERED. -/
def NavInv (st : DaemonState) : Prop :=
  ∃ r, st.root = some r ∧
    st.menuSelectionChain ≠ [] ∧
    st.menuSelectionChain.getLast? = some [] ∧
    (∀ p ∈ st.menuSelectionChain, (getNode r p).isSome = true) ∧
    (getStateAt r (st.menuSelectionChain.headD []) = some MenuItemState.CENTER ∨
     getStateAt r (st.menuSelectionChain.headD []) = some MenuItemState.CENTER_HOVERED)

def structW2 : Item :=
  Item.mk none none none none
    [Item.mk (some "B") none none none [Item.mk (some "C") none none none []]]

def claim2Struct : Item :=
  Item.mk none none none none [Item.mk (some "A") none none none []]

def claim2State : DaemonState := (showMenu idleState "c2" claim2Struct false true).2.1

def cyc (n a b : ℕ) : ℕ := (a + n - b) % n

def structW10 : Item :=
  Item.mk none none none none
    [Item.mk (some "X") none none none [], Item.mk (some "Y") none none none []]

/-- The menu tree refuting the unrestricted reading of claim C10: the only
top-level item has no fixed angle, its three children carry the invalid
fixed angles 30, 10 and none. -/
def claim10Struct : Item :=
  Item.mk none none none none
    [Item.mk none none none none
      [Item.mk none none (some 30) none [], Item.mk none none (some 10) none [],
       Item.mk none none none none []]]

/-- One axis of the clamp: flooring after clamping into [lo, hi] is
idempotent, for every relative position of lo and hi. -/
theorem clampAxis_idem (lo hi x : ℚ) :
    Int.floor (min (max ((Int.floor (min (max x lo) hi) : ℤ) : ℚ) lo) hi)
      = Int.floor (min (max x lo) hi) := by
  rcases le_or_lt lo hi with hle | hlt
  · have hrlo : lo ≤ min (max x lo) hi := le_min (le_max_right x lo) hle
    have hrhi : min (max x lo) hi ≤ hi := min_le_right _ _
    have hfhi : ((Int.floor (min (max x lo) hi) : ℤ) : ℚ) ≤ hi :=
      le_trans (Int.floor_le _) hrhi
    rcases le_or_lt lo ((Int.floor (min (max x lo) hi) : ℤ) : ℚ) with hlf | hlf
    · rw [max_eq_left hlf, min_eq_left hfhi, Int.floor_intCast]
    · rw [max_eq_right (le_of_lt hlf), min_eq_left hle]
      have h1 : Int.floor lo ≤ Int.floor (min (max x lo) hi) := Int.floor_mono hrlo
      have h2 : Int.floor (min (max x lo) hi) ≤ Int.floor lo :=
        Int.le_floor.mpr (le_of_lt hlf)
      omega
  · have h1 : hi ≤ max x lo := le_trans (le_of_lt hlt) (le_max_right x lo)
    rw [min_eq_right h1]
    rw [min_eq_right (le_trans (le_of_lt hlt) (le_max_right ((Int.floor hi : ℤ) : ℚ) lo))]

/-- Claim C6: the clamp is idempotent; feeding the clamped (floored) point
back into the clamp with the same margin returns the same point, for every
configuration, center point and margin. -/
theorem clampToMonitor_idempotent (s : ClampSettings) (x y margin : ℚ) :
    clampToMonitor s ((clampToMonitor s x y margin).1 : ℚ)
      ((clampToMonitor s x y margin).2 : ℚ) margin = clampToMonitor s x y margin := by
  unfold clampToMonitor
  exact Prod.ext (clampAxis_idem _ _ x) (clampAxis_idem _ _ y)

/-- Claim C7, amended: per axis, whenever the clamping interval
[margin + maxSize / 2, monitorSize - margin - maxSize / 2] is nonempty, the
value before flooring lies in that interval, so the returned integer
coordinate lies between the floor of the lower bound and the upper bound
(flooring can drop below a fractional lower bound, see the counterexample). -/
theorem clampToMonitor_within (s : ClampSettings) (x y margin : ℚ)
    (hx : margin + maxSizeOf s / 2 ≤ s.monitorWidth - (margin + maxSizeOf s / 2))
    (hy : margin + maxSizeOf s / 2 ≤ s.monitorHeight - (margin + maxSizeOf s / 2)) :
    Int.floor (margin + maxSizeOf s / 2) ≤ (clampToMonitor s x y margin).1 ∧
    ((clampToMonitor s x y margin).1 : ℚ) ≤ s.monitorWidth - (margin + maxSizeOf s / 2) ∧
    Int.floor (margin + maxSizeOf s / 2) ≤ (clampToMonitor s x y margin).2 ∧
    ((clampToMonitor s x y margin).2 : ℚ) ≤ s.monitorHeight - (margin + maxSizeOf s / 2) := by
  unfold clampToMonitor
  refine ⟨Int.floor_mono (le_min (le_max_right x _) hx),
    le_trans (Int.floor_le _) (min_le_right _ _),
    Int.floor_mono (le_min (le_max_right y _) hy),
    le_trans (Int.floor_le _) (min_le_right _ _)⟩

theorem clampToMonitor_within_witness :
    (10 + maxSizeOf witnessClampSettings / 2
        ≤ witnessClampSettings.monitorWidth - (10 + maxSizeOf witnessClampSettings / 2)) ∧
    Int.floor ((10 : ℚ) + maxSizeOf witnessClampSettings / 2)
      ≤ (clampToMonitor witnessClampSettings 3 200 10).1 := by
  have h : (10 : ℚ) + maxSizeOf witnessClampSettings / 2
      ≤ witnessClampSettings.monitorWidth - (10 + maxSizeOf witnessClampSettings / 2) := by
    norm_num [maxSizeOf, witnessClampSettings]
  have h2 : (10 : ℚ) + maxSizeOf witnessClampSettings / 2
      ≤ witnessClampSettings.monitorHeight - (10 + maxSizeOf witnessClampSettings / 2) := by
    norm_num [maxSizeOf, witnessClampSettings]
  exact ⟨h, (clampToMonitor_within witnessClampSettings 3 200 10 h h2).1⟩

/-- Claim C7 as stated is false: even with a nonempty clamping interval the
returned (floored) x coordinate can lie strictly below
margin + maxExtent / 2. -/
theorem claim7_cex :
    ((0 : ℚ) + maxSizeOf cexClampSettings / 2
        ≤ cexClampSettings.monitorWidth - (0 + maxSizeOf cexClampSettings / 2)) ∧
    ((clampToMonitor cexClampSettings 0 0 0).1 : ℚ)
      < (0 : ℚ) + maxSizeOf cexClampSettings / 2 := by
  constructor
  · norm_num [maxSizeOf, cexClampSettings]
  · norm_num [clampToMonitor, maxSizeOf, cexClampSettings]

/-- Claim C8: a show call while the menu id is set returns AlreadyActive and
leaves the complete daemon state (selection chain, menu tree, menu id) and
the passed structure untouched. -/
theorem show_alreadyActive (st : DaemonState) (menuID : String) (struct : Item)
    (previewMode grabOK : Bool) (h : menuIDTruthy st.menuID = true) :
    showMenu st menuID struct previewMode grabOK = (ShowResult.eAlreadyActive, st, struct) := by
  simp [showMenu, h]

theorem show_alreadyActive_witness :
    menuIDTruthy witnessActiveState.menuID = true ∧
    showMenu witnessActiveState "m1" (Item.mk none none none none []) false true
      = (ShowResult.eAlreadyActive, witnessActiveState, Item.mk none none none none []) :=
  ⟨rfl, show_alreadyActive witnessActiveState "m1" (Item.mk none none none none [])
    false true rfl⟩

/-- Claim C9: a child-selected event for a leaf child arriving with the
primary button held is dropped before any mutation: the state (chain, tree,
drag) is returned unchanged and no outward notification fires. -/
theorem leafChildSelected_suppressed (st : DaemonState) (index : ℕ)
    (h : childCountAtChain st ((st.menuSelectionChain.headD []) ++ [index]) = 0) :
    handleChildSelected st true index = (st, []) := by
  simp only [handleChildSelected, h]
  simp

theorem leafChildSelected_suppressed_witness :
    childCountAtChain witnessActiveState (([] : List ℕ) ++ [0]) = 0 ∧
    handleChildSelected witnessActiveState true 0 = (witnessActiveState, []) := by
  have h : childCountAtChain witnessActiveState
      ((witnessActiveState.menuSelectionChain.headD []) ++ [0]) = 0 := rfl
  exact ⟨h, leafChildSelected_suppressed witnessActiveState 0 h⟩

/-- Claim C5 as stated is false: a show request without a root children list
fails with PropertyMissing before the previous tree is destroyed, so the
previous tree is still present after the failure. -/
theorem claim5_cex :
    (showMenu fadingState "m2" (Item.mk none none none none []) false true).1
      = ShowResult.ePropertyMissing ∧
    ((showMenu fadingState "m2" (Item.mk none none none none []) false true).2.1).root
      = some witnessActiveTree :=
  ⟨rfl, rfl⟩

/-- Claim C5, amended: the previous tree is destroyed after the
AlreadyActive and children-presence checks but before angle validation, so a
show request failing with InvalidAngles or UnknownError leaves no tree,
while one failing with AlreadyActive or PropertyMissing leaves the previous
state (and with it the previous tree) untouched. -/
theorem show_destroy_order (st : DaemonState) (menuID : String) (struct : Item)
    (previewMode grabOK : Bool) :
    ((showMenu st menuID struct previewMode grabOK).1 = ShowResult.eInvalidAngles →
      ((showMenu st menuID struct previewMode grabOK).2.1).root = none) ∧
    ((showMenu st menuID struct previewMode grabOK).1 = ShowResult.eUnknownError →
      ((showMenu st menuID struct previewMode grabOK).2.1).root = none) ∧
    ((showMenu st menuID struct previewMode grabOK).1 = ShowResult.ePropertyMissing →
      (showMenu st menuID struct previewMode grabOK).2.1 = st) ∧
    ((showMenu st menuID struct previewMode grabOK).1 = ShowResult.eAlreadyActive →
      (showMenu st menuID struct previewMode grabOK).2.1 = st) := by
  by_cases h1 : menuIDTruthy st.menuID
  · simp [showMenu, h1]
  · by_cases h2 : struct.children.length = 0
    · simp [showMenu, h1, h2]
    · by_cases h3 : (updateItemAngles struct.children none).1 = false
      · simp [showMenu, h1, h2, h3]
      · by_cases h4 : grabOK = false
        · simp [showMenu, h1, h2, h3, h4]
        · simp [showMenu, h1, h2, h3, h4]

/-- A passing fixed-angle check bounds every collected angle below 360. -/
theorem fixedAnglesOK_range : ∀ (l : List (ℚ × ℕ)) (prev : Option ℚ),
    fixedAnglesOK prev l = true → ∀ p ∈ l, p.1 < 360 := by
  intro l
  induction l with
  | nil => intro prev _ p hp; cases hp
  | cons hd tl ih =>
    intro prev h p hp
    obtain ⟨a, j⟩ := hd
    simp only [fixedAnglesOK, Bool.and_eq_true] at h
    rw [List.mem_cons] at hp
    rcases hp with hp | hp
    · simpa [hp] using of_decide_eq_true h.1.2.2
    · exact ih (some a) h.2 p hp

/-- A passing fixed-angle check makes consecutive collected angles strictly
increasing. -/
theorem fixedAnglesOK_mono : ∀ (l : List (ℚ × ℕ)) (prev : Option ℚ),
    fixedAnglesOK prev l = true → ∀ m, m + 1 < l.length →
      (l.getD m (0, 0)).1 < (l.getD (m + 1) (0, 0)).1 := by
  intro l
  induction l with
  | nil => intro prev _ m hm; simp at hm
  | cons hd tl ih =>
    intro prev h m hm
    obtain ⟨a, j⟩ := hd
    simp only [fixedAnglesOK, Bool.and_eq_true] at h
    match m with
    | 0 =>
      match tl, h.2, hm with
      | (b, j2) :: tl2, h2, _ =>
        simp only [fixedAnglesOK, Bool.and_eq_true] at h2
        simpa using of_decide_eq_true h2.1.1
    | m + 1 =>
      have := ih (some a) h.2 m (by simpa using hm)
      simpa using this

/-- The success flag of _updateItemAngles is the success flag of its own
level; deeper levels cannot influence it. -/
theorem updateItemAngles_fst (items : List Item) (parentAngle : Option ℚ) :
    (updateItemAngles items parentAngle).1
      = (solveLevel (items.map Item.angle) parentAngle).1 := by
  unfold updateItemAngles
  by_cases h : (solveLevel (items.map Item.angle) parentAngle).1 <;> simp [h]

/-- Claim C3, amended: the solver rejects a level whenever the collected
fixed angles (the supplied angles with value at least 0) are not strictly
increasing in list order, or one of them is at least 360, or one of them
lies within 1 degree of the parent link angle.  A supplied negative angle is
not collected and causes no rejection (see the counterexample). -/
theorem solver_rejects_bad_fixed (items : List Item) (parentAngle : Option ℚ)
    (h :
      (∃ m, m + 1 < (collectFixed (items.map Item.angle) 0).length ∧
        ((collectFixed (items.map Item.angle) 0).getD (m + 1) (0, 0)).1
          ≤ ((collectFixed (items.map Item.angle) 0).getD m (0, 0)).1) ∨
      (∃ p ∈ collectFixed (items.map Item.angle) 0, 360 ≤ p.1) ∨
      (∃ p ∈ collectFixed (items.map Item.angle) 0, ∃ q,
        parentAngle = some q ∧ |p.1 - q| < 1)) :
    (updateItemAngles items parentAngle).1 = false := by
  rw [updateItemAngles_fst]
  have hne : ¬((items.map Item.angle).length = 0) := by
    intro h0
    rw [List.length_eq_zero.mp h0] at h
    rcases h with ⟨m, hm, _⟩ | ⟨p, hp, _⟩ | ⟨p, hp, _⟩
    · simp [collectFixed] at hm
    · simp [collectFixed] at hp
    · simp [collectFixed] at hp
  by_cases hOK : fixedAnglesOK none (collectFixed (items.map Item.angle) 0) = false
  · unfold solveLevel
    rw [if_neg hne]
    simp [hOK]
  · have hOK' : fixedAnglesOK none (collectFixed (items.map Item.angle) 0) = true := by
      revert hOK
      cases fixedAnglesOK none (collectFixed (items.map Item.angle) 0) <;> simp
    rcases h with ⟨m, hm, hle⟩ | ⟨p, hp, h360⟩ | ⟨p, hp, q, hq, hcol⟩
    · exact absurd hle
        (not_le.mpr (fixedAnglesOK_mono (collectFixed (items.map Item.angle) 0) none hOK' m hm))
    · exact absurd h360
        (not_le.mpr (fixedAnglesOK_range (collectFixed (items.map Item.angle) 0) none hOK' p hp))
    · have hcoll : parentCollides parentAngle (collectFixed (items.map Item.angle) 0) = true := by
        rw [hq]
        unfold parentCollides
        exact List.any_eq_true.mpr ⟨p, hp, decide_eq_true hcol⟩
      unfold solveLevel
      rw [if_neg hne]
      simp [hOK', hcoll]

theorem solver_rejects_bad_fixed_witness :
    ((∃ m, m + 1 < (collectFixed (badOrderItems.map Item.angle) 0).length ∧
        ((collectFixed (badOrderItems.map Item.angle) 0).getD (m + 1) (0, 0)).1
          ≤ ((collectFixed (badOrderItems.map Item.angle) 0).getD m (0, 0)).1) ∨
      (∃ p ∈ collectFixed (badOrderItems.map Item.angle) 0, 360 ≤ p.1) ∨
      (∃ p ∈ collectFixed (badOrderItems.map Item.angle) 0, ∃ q,
        (none : Option ℚ) = some q ∧ |p.1 - q| < 1)) ∧
    (updateItemAngles badOrderItems none).1 = false :=
  ⟨Or.inl ⟨0, by decide, by decide⟩,
   solver_rejects_bad_fixed badOrderItems none (Or.inl ⟨0, by decide, by decide⟩)⟩

/-- Claim C3 as stated is false: an item with the supplied negative angle -5
is not rejected; the solver returns true and overwrites the angle with the
default 90 as if no angle had been supplied. -/
theorem claim3_cex :
    (updateItemAngles [Item.mk none none (some (-5)) none []] none).1 = true ∧
    ((updateItemAngles [Item.mk none none (some (-5)) none []] none).2.map Item.angle)
      = [some 90] := by
  constructor
  · decide
  · decide

/-- Claim C4 describes the intended behaviour; the code drops it: the level
of the two grandchildren is rejected by the level solver (fixed angles 30,
10 out of order against parent angle 270), yet the top-level solver returns
true because the return false inside items.forEach (Menu.js line 632) only
exits the forEach callback, and show consequently succeeds instead of
failing with InvalidAngles. -/
theorem claim4_swallowed_failure :
    (solveLevel [some 30, some 10] (some 270)).1 = false ∧
    (updateItemAngles claim4Struct.children none).1 = true ∧
    (showMenu idleState "m4" claim4Struct false true).1 = ShowResult.success "m4" := by
  refine ⟨by decide, by decide, by decide⟩

/-- Claim C1: showing this structure returns the passed menu id, the solver
assigns the three children the angles 90, 210 and 330, and the depth-first
id assignment gives them /0, /1 and /2. -/
theorem claim1_end_to_end :
    (showMenu idleState "m1" struct3 false true).1 = ShowResult.success "m1" ∧
    ((showMenu idleState "m1" struct3 false true).2.2.children.map Item.angle)
      = [some 90, some 210, some 330] ∧
    ((showMenu idleState "m1" struct3 false true).2.2.children.map Item.id)
      = [some "/0", some "/1", some "/2"] := by
  refine ⟨by decide, ?_, by decide⟩
  norm_num [showMenu, struct3, idleState, updateItemAngles, updateAnglesList, updateAnglesItem,
    solveLevel, firstFixedAngle, collectFixed, fixedAnglesOK, parentCollides, wedgeLoop,
    wedgeStep, innerLoop, fmod360, updateIDsList, updateIDsItem, childID, Item.angle, Item.id,
    Item.children, menuIDTruthy]

theorem getElem?_isSome_iff {α : Type} (l : List α) (i : ℕ) :
    l[i]?.isSome = true ↔ i < l.length := by
  rcases Nat.lt_or_ge i l.length with h | h
  · rw [List.getElem?_eq_getElem h]
    simp [h]
  · rw [List.getElem?_eq_none h]
    simp
    omega

/-- setState only changes a state field, so it preserves which paths exist. -/
theorem getNode_setTreeState_isSome (p : List ℕ) :
    ∀ (t : ActorTree) (s : MenuItemState) (q : List ℕ),
      (getNode (setTreeState t p s) q).isSome = (getNode t q).isSome := by
  induction p with
  | nil =>
    intro t s q
    obtain ⟨id, cap, icon, angle, st, children⟩ := t
    cases q with
    | nil => rfl
    | cons j qr => simp [setTreeState, getNode, ActorTree.children]
  | cons i pr ih =>
    intro t s q
    obtain ⟨id, cap, icon, angle, st, children⟩ := t
    cases hci : children[i]? with
    | none => simp [setTreeState, ActorTree.children, hci]
    | some c =>
      have hlen : i < children.length := by
        rw [← getElem?_isSome_iff, hci]
        rfl
      cases q with
      | nil => simp [setTreeState, ActorTree.children, hci, getNode]
      | cons j qr =>
        by_cases hij : j = i
        · subst hij
          simp [setTreeState, ActorTree.children, hci, getNode,
            List.getElem?_set_eq_of_lt _ hlen, ih]
        · simp [setTreeState, ActorTree.children, hci, getNode,
            List.getElem?_set_ne (fun hh => hij hh.symm)]

/-- setState writes the given state at the addressed (existing) node. -/
theorem getStateAt_setTreeState_self (p : List ℕ) :
    ∀ (t : ActorTree) (s : MenuItemState), (getNode t p).isSome = true →
      getStateAt (setTreeState t p s) p = some s := by
  induction p with
  | nil =>
    intro t s _
    obtain ⟨id, cap, icon, angle, st, children⟩ := t
    rfl
  | cons i pr ih =>
    intro t s h
    obtain ⟨id, cap, icon, angle, st, children⟩ := t
    cases hci : children[i]? with
    | none => simp [getNode, ActorTree.children, hci] at h
    | some c =>
      have hlen : i < children.length := by
        rw [← getElem?_isSome_iff, hci]
        rfl
      have h2 : (getNode c pr).isSome = true := by
        simpa [getNode, ActorTree.children, hci] using h
      simp [setTreeState, ActorTree.children, hci, getStateAt, getNode,
        List.getElem?_set_eq_of_lt _ hlen]
      simpa [getStateAt] using ih c s h2

/-- Chasing a concatenated path is chasing its two halves. -/
theorem getNode_append (p q : List ℕ) : ∀ t : ActorTree,
    getNode t (p ++ q) = (getNode t p).bind (fun nd => getNode nd q) := by
  induction p with
  | nil => intro t; rfl
  | cons i pr ih =>
    intro t
    obtain ⟨id, cap, icon, angle, st, children⟩ := t
    cases hci : children[i]? with
    | none => simp [getNode, ActorTree.children, hci]
    | some c => simp [getNode, ActorTree.children, hci, ih]

/-- A child index below the child count addresses an existing node. -/
theorem getNode_child_isSome (t : ActorTree) (p : List ℕ) (i : ℕ)
    (h : i < childCountAt t p) : (getNode t (p ++ [i])).isSome = true := by
  rw [getNode_append]
  cases hgp : getNode t p with
  | none => simp [childCountAt, hgp] at h
  | some nd =>
    have hlen : i < nd.children.length := by simpa [childCountAt, hgp] using h
    obtain ⟨id, cap, icon, angle, st, children⟩ := nd
    simp [ActorTree.children] at hlen
    cases hci : children[i]? with
    | none =>
      rw [List.getElem?_eq_getElem hlen] at hci
      exact Option.noConfusion hci
    | some c => simp [getNode, ActorTree.children, hci]

theorem navStep_preserves (st : DaemonState) (e : NavEvent)
    (hInv : NavInv st) (hval : validNavEvent st e = true)
    (hnc : nonCommitting st e = true) : NavInv (navStep st e) := by
  obtain ⟨r, hroot, hne, hlast, hpaths, hhead⟩ := hInv
  cases e with
  | childSelected b i =>
    have hvi : i < childCountAt r (st.menuSelectionChain.headD []) := by
      have := of_decide_eq_true hval
      simpa [centerChildCount, childCountAtChain, hroot] using this
    have hchild : (getNode r ((st.menuSelectionChain.headD []) ++ [i])).isSome = true :=
      getNode_child_isSome r _ i hvi
    by_cases hguard :
        (b && decide (childCountAtChain st ((st.menuSelectionChain.headD []) ++ [i]) = 0))
          = true
    · have : navStep st (NavEvent.childSelected b i) = st := by
        simp only [navStep, handleChildSelected, hguard]
        simp
      rw [this]
      exact ⟨r, hroot, hne, hlast, hpaths, hhead⟩
    · have hcc : ¬(childCountAtChain st ((st.menuSelectionChain.headD []) ++ [i]) = 0) := by
        rcases Bool.eq_false_or_eq_true b with hb | hb
        · subst hb
          intro h0
          exact hguard (by rw [h0]; simp)
        · subst hb
          simp only [nonCommitting, Bool.or_false] at hnc
          exact of_decide_eq_true hnc
      simp only [navStep, handleChildSelected, Bool.if_false_left]
      rw [if_neg hguard, if_neg hcc]
      refine ⟨setTreeState (setTreeState r (st.menuSelectionChain.headD [])
          MenuItemState.PARENT) ((st.menuSelectionChain.headD []) ++ [i])
          MenuItemState.CENTER_HOVERED, by simp [hroot], by simp, ?_, ?_, ?_⟩
      · cases hc : st.menuSelectionChain with
        | nil => exact absurd hc hne
        | cons c0 crest =>
          simp only [List.getLast?_cons_cons]
          rw [← hc]
          exact hlast
      · intro p hp
        rw [getNode_setTreeState_isSome, getNode_setTreeState_isSome]
        rcases List.mem_cons.mp hp with hp | hp
        · rw [hp]
          exact hchild
        · exact hpaths p hp
      · right
        have hvalid2 : (getNode (setTreeState r (st.menuSelectionChain.headD [])
            MenuItemState.PARENT) ((st.menuSelectionChain.headD []) ++ [i])).isSome = true := by
          rw [getNode_setTreeState_isSome]
          exact hchild
        simpa using getStateAt_setTreeState_self _ _ MenuItemState.CENTER_HOVERED hvalid2
  | parentSelected =>
    have hlen : 1 < st.menuSelectionChain.length := of_decide_eq_true hval
    cases hc : st.menuSelectionChain with
    | nil => rw [hc] at hlen; simp at hlen
    | cons c0 crest =>
      cases hcr : crest with
      | nil => rw [hc, hcr] at hlen; simp at hlen
      | cons c1 crest2 =>
        have hc1mem : c1 ∈ st.menuSelectionChain := by rw [hc, hcr]; simp
        have hc1some : (getNode r c1).isSome = true := hpaths c1 hc1mem
        simp only [navStep, handleParentSelected, hc, hcr]
        refine ⟨setTreeState r c1 MenuItemState.CENTER_HOVERED, by simp [hroot], by simp,
          ?_, ?_, ?_⟩
        · simp only [List.tail_cons]
          have := hlast
          rw [hc, hcr, List.getLast?_cons_cons] at this
          exact this
        · intro p hp
          rw [getNode_setTreeState_isSome]
          refine hpaths p ?_
          rw [hc, hcr]
          simp only [List.tail_cons] at hp
          exact List.mem_cons.mpr (Or.inr hp)
        · right
          simp only [List.tail_cons, List.headD_cons]
          simpa using getStateAt_setTreeState_self c1 r MenuItemState.CENTER_HOVERED hc1some

theorem navRun_preserves (evs : List NavEvent) : ∀ st : DaemonState, NavInv st →
    validRun st evs = true → commitFreeRun st evs = true → NavInv (navRun st evs) := by
  induction evs with
  | nil => intro st h _ _; exact h
  | cons e rest ih =>
    intro st h hv hc
    simp only [validRun, Bool.and_eq_true] at hv
    simp only [commitFreeRun, Bool.and_eq_true] at hc
    simp only [navRun]
    exact ih (navStep st e) (navStep_preserves st e h hv.1 hc.1) hv.2 hc.2

/-- A successful show leaves the daemon in a state satisfying the chain
invariant: the chain is the single root path and the root is
CENTER_HOVERED. -/
theorem showMenu_NavInv (st0 : DaemonState) (mid : String) (struct : Item) (pm g : Bool)
    (hchain : st0.menuSelectionChain = [])
    (hsucc : (showMenu st0 mid struct pm g).1 = ShowResult.success mid) :
    NavInv (showMenu st0 mid struct pm g).2.1 := by
  by_cases h1 : menuIDTruthy st0.menuID = true
  · exfalso
    simp [showMenu, h1] at hsucc
  · by_cases h2 : struct.children.length = 0
    · exfalso
      simp [showMenu, h1, h2] at hsucc
    · by_cases h3 : (updateItemAngles struct.children none).1 = false
      · exfalso
        simp [showMenu, h1, h2, h3] at hsucc
      · by_cases h4 : g = false
        · exfalso
          simp [showMenu, h1, h2, h3, h4] at hsucc
        · refine ⟨setTreeState (createMenuItem (Item.mk
            (match struct.name with | none => some "root" | some s => some s)
            (match struct.icon with | none => some "image-missing" | some s => some s)
            (some 0) (some "/") (updateIDsList (updateItemAngles struct.children none).2 none 0)))
            [] MenuItemState.CENTER_HOVERED, ?_, ?_, ?_, ?_, ?_⟩
          · simp [showMenu, h1, h2, h3, h4, hchain]
          · simp [showMenu, h1, h2, h3, h4, hchain]
          · simp [showMenu, h1, h2, h3, h4, hchain]
          · intro p hp
            simp [showMenu, h1, h2, h3, h4, hchain] at hp
            subst hp
            rfl
          · right
            simp [showMenu, h1, h2, h3, h4, hchain]
            exact getStateAt_setTreeState_self [] _ MenuItemState.CENTER_HOVERED rfl

/-- Claim C2, amended: after a successful show, every sequence of valid
child-selected / parent-selected events that does not commit a leaf
selection preserves the selection chain invariant. -/
theorem selection_chain_invariant (st0 : DaemonState) (mid : String) (struct : Item)
    (pm g : Bool) (evs : List NavEvent)
    (hchain : st0.menuSelectionChain = [])
    (hsucc : (showMenu st0 mid struct pm g).1 = ShowResult.success mid)
    (hval : validRun ((showMenu st0 mid struct pm g).2.1) evs = true)
    (hnc : commitFreeRun ((showMenu st0 mid struct pm g).2.1) evs = true) :
    NavInv (navRun ((showMenu st0 mid struct pm g).2.1) evs) :=
  navRun_preserves evs _ (showMenu_NavInv st0 mid struct pm g hchain hsucc) hval hnc

theorem selection_chain_invariant_witness :
    (showMenu idleState "w2" structW2 false true).1 = ShowResult.success "w2" ∧
    validRun ((showMenu idleState "w2" structW2 false true).2.1)
      [NavEvent.childSelected false 0, NavEvent.parentSelected] = true ∧
    NavInv (navRun ((showMenu idleState "w2" structW2 false true).2.1)
      [NavEvent.childSelected false 0, NavEvent.parentSelected]) :=
  ⟨by decide, by decide,
   selection_chain_invariant idleState "w2" structW2 false true
     [NavEvent.childSelected false 0, NavEvent.parentSelected]
     rfl (by decide) (by decide) (by decide)⟩

/-- Claim C2 as stated is false: selecting a leaf child (button released) is
a valid child-selected event, but it commits the selection, hides the menu
and empties the selection chain, so afterwards there is no element at index
0 in the required state and no last element equal to the root. -/
theorem claim2_cex :
    validRun claim2State [NavEvent.childSelected false 0] = true ∧
    (navRun claim2State [NavEvent.childSelected false 0]).menuSelectionChain = [] ∧
    ¬ NavInv (navRun claim2State [NavEvent.childSelected false 0]) := by
  have hempty : (navRun claim2State [NavEvent.childSelected false 0]).menuSelectionChain
      = [] := by decide
  refine ⟨by decide, hempty, ?_⟩
  rintro ⟨r, _, hne, _⟩
  exact hne hempty

/-! ## Coverage of the wedge loop: every index of a successfully solved
level receives an angle.  cyc n a b counts the +1 mod n steps needed to
reach a from b; the inner loop starting at index b visits exactly the
indices m with cyc n m b < cyc n e b. -/

theorem cyc_eq (n a b : ℕ) (ha : a < n) (hb : b < n) :
    cyc n a b = if b ≤ a then a - b else a + n - b := by
  unfold cyc
  split
  · next h =>
    rw [show a + n - b = (a - b) + n by omega, Nat.add_mod_right]
    exact Nat.mod_eq_of_lt (by omega)
  · next h => exact Nat.mod_eq_of_lt (by omega)

theorem cyc_lt (n a b : ℕ) (ha : a < n) (hb : b < n) : cyc n a b < n := by
  rw [cyc_eq n a b ha hb]
  split <;> omega

theorem cyc_self (n a : ℕ) (ha : a < n) : cyc n a a = 0 := by
  rw [cyc_eq n a a ha ha]
  simp

theorem cyc_pos (n a b : ℕ) (ha : a < n) (hb : b < n) (hne : a ≠ b) : 0 < cyc n a b := by
  rw [cyc_eq n a b ha hb]
  split <;> omega

theorem cyc_step (n a b : ℕ) (ha : a < n) (hb : b < n) (hne : a ≠ b) :
    cyc n a ((b + 1) % n) = cyc n a b - 1 := by
  have hn : 0 < n := by omega
  by_cases hb1 : b + 1 = n
  · have h0 : (b + 1) % n = 0 := by rw [hb1]; simp
    have hab : a < b := by omega
    rw [h0, cyc_eq n a 0 ha hn, cyc_eq n a b ha hb, if_pos (Nat.zero_le a),
      if_neg (by omega)]
    omega
  · have h1 : (b + 1) % n = b + 1 := Nat.mod_eq_of_lt (by omega)
    rw [h1, cyc_eq n a (b + 1) ha (by omega), cyc_eq n a b ha hb]
    split
    · next h => rw [if_pos (by omega)]; omega
    · next h =>
      by_cases hba : b ≤ a
      · have : a = b := by omega
        exact absurd this hne
      · rw [if_neg (by omega)]
        omega

/-- A set entry stays set under further set operations with some values. -/
theorem isSome_getD_set (l : List (Option ℚ)) (j m : ℕ) (x : ℚ)
    (h : (l.getD m none).isSome = true) :
    ((l.set j (some x)).getD m none).isSome = true := by
  by_cases hjm : j = m
  · subst hjm
    by_cases hlen : j < l.length
    · rw [List.getD_eq_getElem?_getD, List.getElem?_set_eq_of_lt _ hlen]
      rfl
    · rw [List.set_eq_of_length_le (by omega)]
      exact h
  · rw [List.getD_eq_getElem?_getD, List.getElem?_set_ne hjm,
      ← List.getD_eq_getElem?_getD]
    exact h

/-- The entry written by set is set (when the index is in range). -/
theorem isSome_getD_set_self (l : List (Option ℚ)) (j : ℕ) (x : ℚ) (hlen : j < l.length) :
    ((l.set j (some x)).getD j none).isSome = true := by
  rw [List.getD_eq_getElem?_getD, List.getElem?_set_eq_of_lt _ hlen]
  rfl

theorem innerLoop_length (n e : ℕ) (wb gap pa : ℚ) :
    ∀ (fuel index count : ℕ) (pgr : Bool) (angles : List (Option ℚ)),
      (innerLoop n e wb gap pa index count pgr angles fuel).length = angles.length := by
  intro fuel
  induction fuel with
  | zero => intro index count pgr angles; rfl
  | succ fuel ih =>
    intro index count pgr angles
    rw [innerLoop]
    by_cases h : index = e
    · rw [if_pos h]
    · rw [if_neg h, ih, List.length_set]

theorem innerLoop_preserves (n e : ℕ) (wb gap pa : ℚ) :
    ∀ (fuel index count : ℕ) (pgr : Bool) (angles : List (Option ℚ)) (m : ℕ),
      (angles.getD m none).isSome = true →
      ((innerLoop n e wb gap pa index count pgr angles fuel).getD m none).isSome = true := by
  intro fuel
  induction fuel with
  | zero => intro index count pgr angles m h; exact h
  | succ fuel ih =>
    intro index count pgr angles m h
    rw [innerLoop]
    by_cases hie : index = e
    · rw [if_pos hie]; exact h
    · rw [if_neg hie]
      exact ih _ _ _ _ m (isSome_getD_set angles index m _ h)

theorem innerLoop_covers (n e : ℕ) (wb gap pa : ℚ) (he : e < n) :
    ∀ (fuel index count : ℕ) (pgr : Bool) (angles : List (Option ℚ)),
      index < n → angles.length = n → cyc n e index ≤ fuel →
      ∀ m, m < n → cyc n m index < cyc n e index →
        ((innerLoop n e wb gap pa index count pgr angles fuel).getD m none).isSome = true := by
  intro fuel
  induction fuel with
  | zero =>
    intro index count pgr angles hidx hlen hfuel m hm hcyc
    omega
  | succ fuel ih =>
    intro index count pgr angles hidx hlen hfuel m hm hcyc
    by_cases hie : index = e
    · rw [hie, cyc_self n e he] at hcyc
      omega
    · rw [innerLoop, if_neg hie]
      by_cases hmi : m = index
      · subst hmi
        exact innerLoop_preserves n e wb gap pa fuel _ _ _ _ m
          (isSome_getD_set_self angles m _ (by omega))
      · have hidx2 : (index + 1) % n < n := Nat.mod_lt _ (by omega)
        have hcycE : cyc n e ((index + 1) % n) = cyc n e index - 1 :=
          cyc_step n e index he hidx (fun hh => hie hh.symm)
        have hcycM : cyc n m ((index + 1) % n) = cyc n m index - 1 :=
          cyc_step n m index hm hidx hmi
        have hpos : 0 < cyc n m index := cyc_pos n m index hm hidx hmi
        exact ih _ _ _ _ hidx2 (by rw [List.length_set]; exact hlen)
          (by omega) m hm (by omega)

theorem wedgeStep_fst_length (fa : List (ℚ × ℕ)) (i : ℕ) (angles : List (Option ℚ))
    (pa : Option ℚ) : ((wedgeStep fa i angles pa).1).length = angles.length := by
  simp only [wedgeStep]
  rw [innerLoop_length]

theorem wedgeStep_preserves (fa : List (ℚ × ℕ)) (i : ℕ) (angles : List (Option ℚ))
    (pa : Option ℚ) (m : ℕ) (h : (angles.getD m none).isSome = true) :
    (((wedgeStep fa i angles pa).1).getD m none).isSome = true := by
  simp only [wedgeStep]
  exact innerLoop_preserves _ _ _ _ _ _ _ _ _ _ m h

theorem wedgeStep_covers (fa : List (ℚ × ℕ)) (i : ℕ) (angles : List (Option ℚ))
    (pa : Option ℚ) (m : ℕ)
    (hb : (fa.getD i (0, 0)).2 < angles.length)
    (he : (fa.getD ((i + 1) % fa.length) (0, 0)).2 < angles.length)
    (hm : m < angles.length)
    (hcover :
      ((fa.getD i (0, 0)).2 < m ∧ m < (fa.getD ((i + 1) % fa.length) (0, 0)).2) ∨
      ((fa.getD ((i + 1) % fa.length) (0, 0)).2 ≤ (fa.getD i (0, 0)).2 ∧
        (fa.getD i (0, 0)).2 < m) ∨
      ((fa.getD ((i + 1) % fa.length) (0, 0)).2 ≤ (fa.getD i (0, 0)).2 ∧
        m < (fa.getD ((i + 1) % fa.length) (0, 0)).2)) :
    (((wedgeStep fa i angles pa).1).getD m none).isSome = true := by
  have hn0 : 0 < angles.length := by omega
  have hs : ((fa.getD i (0, 0)).2 + 1) % angles.length < angles.length := Nat.mod_lt _ hn0
  have hkey : cyc angles.length m (((fa.getD i (0, 0)).2 + 1) % angles.length)
      < cyc angles.length ((fa.getD ((i + 1) % fa.length) (0, 0)).2)
          (((fa.getD i (0, 0)).2 + 1) % angles.length) := by
    by_cases hbn : (fa.getD i (0, 0)).2 + 1 = angles.length
    · have h0 : ((fa.getD i (0, 0)).2 + 1) % angles.length = 0 := by
        rw [hbn, Nat.mod_self]
      rw [h0, cyc_eq _ m 0 hm hn0, cyc_eq _ _ 0 he hn0, if_pos (Nat.zero_le m),
        if_pos (Nat.zero_le _)]
      rcases hcover with ⟨h2, h3⟩ | ⟨h2, h3⟩ | ⟨h2, h3⟩ <;> omega
    · have h1 : ((fa.getD i (0, 0)).2 + 1) % angles.length = (fa.getD i (0, 0)).2 + 1 :=
        Nat.mod_eq_of_lt (by omega)
      rw [h1, cyc_eq _ m _ hm (by omega), cyc_eq _ _ _ he (by omega)]
      rcases hcover with ⟨h2, h3⟩ | ⟨h2, h3⟩ | ⟨h2, h3⟩
      · rw [if_pos (by omega), if_pos (by omega)]
        omega
      · rw [if_pos (by omega), if_neg (by omega)]
        omega
      · rw [if_neg (by omega), if_neg (by omega)]
        omega
  simp only [wedgeStep]
  exact innerLoop_covers _ _ _ _ _ he _ _ 1 _ angles hs rfl
    (le_of_lt (cyc_lt _ _ _ he hs)) m hm hkey

theorem wedgeLoop_length (fa : List (ℚ × ℕ)) :
    ∀ (fuel i : ℕ) (angles : List (Option ℚ)) (pa : Option ℚ),
      (wedgeLoop fa fuel i angles pa).length = angles.length := by
  intro fuel
  induction fuel with
  | zero => intro i angles pa; rfl
  | succ fuel ih =>
    intro i angles pa
    rw [wedgeLoop]
    rw [ih]
    exact wedgeStep_fst_length fa i angles pa

/-- After the whole wedge loop every index below the level size carries an
angle: the loop invariant is that before processing wedge i every index
between the first and the i-th fixed index is set, and the last wedge closes
the cycle. -/
theorem wedgeLoop_covers_all (fa : List (ℚ × ℕ)) (n : ℕ)
    (hk : 0 < fa.length)
    (hbound : ∀ j, j < fa.length → (fa.getD j (0, 0)).2 < n)
    (hsorted : ∀ j, j + 1 < fa.length →
      (fa.getD j (0, 0)).2 < (fa.getD (j + 1) (0, 0)).2) :
    ∀ (fuel i : ℕ) (angles : List (Option ℚ)) (pa : Option ℚ),
      i + fuel = fa.length → i < fa.length → angles.length = n →
      (∀ m, (fa.getD 0 (0, 0)).2 ≤ m → m ≤ (fa.getD i (0, 0)).2 →
        (angles.getD m none).isSome = true) →
      (∀ j, j < fa.length → (angles.getD ((fa.getD j (0, 0)).2) none).isSome = true) →
      ∀ m, m < n → ((wedgeLoop fa fuel i angles pa).getD m none).isSome = true := by
  have hmono : ∀ j2, j2 < fa.length → ∀ j1, j1 ≤ j2 →
      (fa.getD j1 (0, 0)).2 ≤ (fa.getD j2 (0, 0)).2 := by
    intro j2
    induction j2 with
    | zero =>
      intro _ j1 hj1
      have hj0 : j1 = 0 := by omega
      rw [hj0]
    | succ j ih =>
      intro hlt j1 hj1
      by_cases hj : j1 = j + 1
      · rw [hj]
      · have h2 := ih (by omega) j1 (by omega)
        have h3 := hsorted j hlt
        omega
  intro fuel
  induction fuel with
  | zero =>
    intro i angles pa hif hi
    omega
  | succ fuel ih =>
    intro i angles pa hif hi hlen hint hfix m hm
    rw [wedgeLoop]
    by_cases hlastWedge : fuel = 0
    · subst hlastWedge
      rw [wedgeLoop]
      have hi' : i + 1 = fa.length := by omega
      have he0 : (i + 1) % fa.length = 0 := by rw [hi']; exact Nat.mod_self _
      have hb : (fa.getD i (0, 0)).2 < n := hbound i hi
      have he : (fa.getD 0 (0, 0)).2 < n := hbound 0 hk
      have hbe : (fa.getD 0 (0, 0)).2 ≤ (fa.getD i (0, 0)).2 := hmono i hi 0 (Nat.zero_le i)
      by_cases hmb : (fa.getD 0 (0, 0)).2 ≤ m ∧ m ≤ (fa.getD i (0, 0)).2
      · exact wedgeStep_preserves fa i angles pa m (hint m hmb.1 hmb.2)
      · refine wedgeStep_covers fa i angles pa m (by omega) ?_ (by omega) ?_
        · rw [he0]
          omega
        · rw [he0]
          rcases Nat.lt_or_ge (fa.getD i (0, 0)).2 m with hgt | hge
        
          · exact Or.inr (Or.inl ⟨hbe, hgt⟩)
          · have hlt0 : m < (fa.getD 0 (0, 0)).2 := by omega
            exact Or.inr (Or.inr ⟨hbe, hlt0⟩)
    · have hi1 : i + 1 < fa.length := by omega
      have hmod : (i + 1) % fa.length = i + 1 := Nat.mod_eq_of_lt hi1
      have hb : (fa.getD i (0, 0)).2 < n := hbound i hi
      have hb1 : (fa.getD (i + 1) (0, 0)).2 < n := hbound (i + 1) hi1
      refine ih (i + 1) (wedgeStep fa i angles pa).1 (wedgeStep fa i angles pa).2
        (by omega) hi1 (by rw [wedgeStep_fst_length]; exact hlen) ?_ ?_ m hm
      · intro m2 h0 h1
        by_cases hcase : m2 ≤ (fa.getD i (0, 0)).2
        · exact wedgeStep_preserves fa i angles pa m2 (hint m2 h0 hcase)
        · by_cases hcase2 : m2 = (fa.getD (i + 1) (0, 0)).2
          · refine wedgeStep_preserves fa i angles pa m2 ?_
            rw [hcase2]
            exact hfix (i + 1) hi1
          · refine wedgeStep_covers fa i angles pa m2 (by omega) ?_ (by omega) ?_
            · rw [hmod]
              omega
            · rw [hmod]
              exact Or.inl ⟨by omega, by omega⟩
      · intro j hj
        exact wedgeStep_preserves fa i angles pa _ (hfix j hj)

theorem collectFixed_mem : ∀ (angles : List (Option ℚ)) (i : ℕ) (p : ℚ × ℕ),
    p ∈ collectFixed angles i →
    i ≤ p.2 ∧ p.2 < i + angles.length ∧ angles.getD (p.2 - i) none = some p.1 := by
  intro angles
  induction angles with
  | nil => intro i p hp; simp [collectFixed] at hp
  | cons a rest ih =>
    intro i p hp
    match a with
    | none =>
      rw [collectFixed] at hp
      have h2 := ih (i + 1) p hp
      refine ⟨by omega, by simp only [List.length_cons]; omega, ?_⟩
      have hsub : p.2 - i = (p.2 - (i + 1)) + 1 := by omega
      rw [hsub, List.getD_cons_succ]
      exact h2.2.2
    | some x =>
      rw [collectFixed] at hp
      by_cases hx : 0 ≤ x
      · rw [if_pos hx] at hp
        rcases List.mem_cons.mp hp with hp | hp
        · subst hp
          refine ⟨le_refl _, by simp only [List.length_cons]; omega, by simp⟩
        · have h2 := ih (i + 1) p hp
          refine ⟨by omega, by simp only [List.length_cons]; omega, ?_⟩
          have hsub : p.2 - i = (p.2 - (i + 1)) + 1 := by omega
          rw [hsub, List.getD_cons_succ]
          exact h2.2.2
      · rw [if_neg hx] at hp
        have h2 := ih (i + 1) p hp
        refine ⟨by omega, by simp only [List.length_cons]; omega, ?_⟩
        have hsub : p.2 - i = (p.2 - (i + 1)) + 1 := by omega
        rw [hsub, List.getD_cons_succ]
        exact h2.2.2

theorem collectFixed_pairwise : ∀ (angles : List (Option ℚ)) (i : ℕ),
    List.Pairwise (fun p q : ℚ × ℕ => p.2 < q.2) (collectFixed angles i) := by
  intro angles
  induction angles with
  | nil => intro i; exact List.Pairwise.nil
  | cons a rest ih =>
    intro i
    match a with
    | none => rw [collectFixed]; exact ih (i + 1)
    | some x =>
      rw [collectFixed]
      by_cases hx : 0 ≤ x
      · rw [if_pos hx]
        refine List.Pairwise.cons ?_ (ih (i + 1))
        intro q hq
        have h2 := (collectFixed_mem rest (i + 1) q hq).1
        simp only []
        omega
      · rw [if_neg hx]
        exact ih (i + 1)

theorem getD_eq_get_pair (l : List (ℚ × ℕ)) (j : ℕ) (h : j < l.length) :
    l.getD j (0, 0) = l.get ⟨j, h⟩ := by
  rw [List.getD_eq_getElem?_getD, List.getElem?_eq_getElem h]
  rfl

theorem collectFixed_sorted_getD (angles : List (Option ℚ)) (j : ℕ)
    (hj : j + 1 < (collectFixed angles 0).length) :
    ((collectFixed angles 0).getD j (0, 0)).2
      < ((collectFixed angles 0).getD (j + 1) (0, 0)).2 := by
  have hp := collectFixed_pairwise angles 0
  rw [List.pairwise_iff_get] at hp
  rw [getD_eq_get_pair _ j (by omega), getD_eq_get_pair _ (j + 1) hj]
  exact hp ⟨j, by omega⟩ ⟨j + 1, hj⟩ (by simp)

theorem collectFixed_getD_bound (angles : List (Option ℚ)) (j : ℕ)
    (hj : j < (collectFixed angles 0).length) :
    ((collectFixed angles 0).getD j (0, 0)).2 < angles.length := by
  have hmem : (collectFixed angles 0).getD j (0, 0) ∈ collectFixed angles 0 := by
    rw [getD_eq_get_pair _ j hj]
    exact List.get_mem _ _ _
  have h2 := (collectFixed_mem angles 0 _ hmem).2.1
  omega

theorem collectFixed_getD_isSome (angles : List (Option ℚ)) (j : ℕ)
    (hj : j < (collectFixed angles 0).length) :
    (angles.getD (((collectFixed angles 0).getD j (0, 0)).2) none).isSome = true := by
  have hmem : (collectFixed angles 0).getD j (0, 0) ∈ collectFixed angles 0 := by
    rw [getD_eq_get_pair _ j hj]
    exact List.get_mem _ _ _
  have h2 := (collectFixed_mem angles 0 _ hmem).2.2
  rw [Nat.sub_zero] at h2
  rw [h2]
  rfl

theorem solveLevel_snd_eq_of_fixed (angles : List (Option ℚ)) (pa : Option ℚ)
    (h0 : ¬angles.length = 0)
    (hOK : ¬fixedAnglesOK none (collectFixed angles 0) = false)
    (hcol : ¬parentCollides pa (collectFixed angles 0) = true)
    (hfa : ¬(collectFixed angles 0).length = 0) :
    (solveLevel angles pa).2
      = wedgeLoop (collectFixed angles 0) ((collectFixed angles 0).length) 0 angles pa := by
  unfold solveLevel
  rw [if_neg h0]
  simp [hOK, hcol, hfa]

theorem solveLevel_snd_eq_of_none (angles : List (Option ℚ)) (pa : Option ℚ)
    (h0 : ¬angles.length = 0)
    (hOK : ¬fixedAnglesOK none (collectFixed angles 0) = false)
    (hcol : ¬parentCollides pa (collectFixed angles 0) = true)
    (hfa : (collectFixed angles 0).length = 0) :
    (solveLevel angles pa).2
      = wedgeLoop [(firstFixedAngle pa, 0)] 1 0
          (angles.set 0 (some (firstFixedAngle pa))) pa := by
  unfold solveLevel
  rw [if_neg h0]
  simp [hOK, hcol, hfa]

theorem solveLevel_snd_length (angles : List (Option ℚ)) (pa : Option ℚ) :
    (solveLevel angles pa).2.length = angles.length := by
  by_cases h0 : angles.length = 0
  · unfold solveLevel
    rw [if_pos h0]
  · by_cases hOK : fixedAnglesOK none (collectFixed angles 0) = false
    · unfold solveLevel
      rw [if_neg h0]
      simp [hOK]
    · by_cases hcol : parentCollides pa (collectFixed angles 0) = true
      · unfold solveLevel
        rw [if_neg h0]
        simp [hOK, hcol]
      · by_cases hfa : (collectFixed angles 0).length = 0
        · rw [solveLevel_snd_eq_of_none angles pa h0 hOK hcol hfa, wedgeLoop_length,
            List.length_set]
        · rw [solveLevel_snd_eq_of_fixed angles pa h0 hOK hcol hfa, wedgeLoop_length]

/-- On success every entry of the solved level is assigned. -/
theorem solveLevel_snd_all_isSome (angles : List (Option ℚ)) (pa : Option ℚ)
    (hsucc : (solveLevel angles pa).1 = true) :
    ∀ o ∈ (solveLevel angles pa).2, o.isSome = true := by
  by_cases h0 : angles.length = 0
  · intro o ho
    rw [List.length_eq_zero.mp h0] at ho
    simp [solveLevel] at ho
  · by_cases hOK : fixedAnglesOK none (collectFixed angles 0) = false
    · exfalso
      unfold solveLevel at hsucc
      rw [if_neg h0] at hsucc
      simp [hOK] at hsucc
    · by_cases hcol : parentCollides pa (collectFixed angles 0) = true
      · exfalso
        unfold solveLevel at hsucc
        rw [if_neg h0] at hsucc
        simp [hOK, hcol] at hsucc
      · have hall : ∀ m, m < angles.length →
            (((solveLevel angles pa).2).getD m none).isSome = true := by
          intro m hm
          by_cases hfa : (collectFixed angles 0).length = 0
          · rw [solveLevel_snd_eq_of_none angles pa h0 hOK hcol hfa]
            refine wedgeLoop_covers_all _ angles.length (by simp) ?_ ?_ 1 0 _ pa
              (by simp) (by simp) (by rw [List.length_set]) ?_ ?_ m hm
            · intro j hj
              simp only [List.length_singleton] at hj
              have hj0 : j = 0 := by omega
              rw [hj0]
              simp only [List.getD_cons_zero]
              omega
            · intro j hj
              simp only [List.length_singleton] at hj
              omega
            · intro m2 hge hle
              simp only [List.getD_cons_zero] at hge hle
              have hm2 : m2 = 0 := by omega
              rw [hm2]
              exact isSome_getD_set_self angles 0 _ (by omega)
            · intro j hj
              simp only [List.length_singleton] at hj
              have hj0 : j = 0 := by omega
              rw [hj0]
              simp only [List.getD_cons_zero]
              exact isSome_getD_set_self angles 0 _ (by omega)
          · rw [solveLevel_snd_eq_of_fixed angles pa h0 hOK hcol hfa]
            refine wedgeLoop_covers_all _ angles.length (by omega) ?_ ?_ _ 0 _ pa
              (by omega) (by omega) rfl ?_ ?_ m hm
            · intro j hj
              exact collectFixed_getD_bound angles j hj
            · intro j hj
              exact collectFixed_sorted_getD angles j hj
            · intro m2 hge hle
              have hm2 : m2 = ((collectFixed angles 0).getD 0 (0, 0)).2 := by omega
              rw [hm2]
              exact collectFixed_getD_isSome angles 0 (by omega)
            · intro j hj
              exact collectFixed_getD_isSome angles j hj
        intro o ho
        obtain ⟨j, hjlen, hjo⟩ := List.mem_iff_getElem.mp ho
        have hjn : j < angles.length := by
          rw [solveLevel_snd_length] at hjlen
          exact hjlen
        have h2 := hall j hjn
        rw [List.getD_eq_getElem?_getD, List.getElem?_eq_getElem hjlen] at h2
        rw [← hjo]
        exact h2

theorem updateAnglesList_angle_isSome : ∀ (items : List Item) (angles : List (Option ℚ)),
    items.length = angles.length → (∀ o ∈ angles, o.isSome = true) →
    ∀ it ∈ updateAnglesList items angles, it.angle.isSome = true := by
  intro items
  induction items with
  | nil => intro angles _ _ it hit; simp [updateAnglesList] at hit
  | cons hd tl ih =>
    intro angles hlen hall it hit
    cases angles with
    | nil => simp at hlen
    | cons a as =>
      obtain ⟨n, ic, an, idOpt, ch⟩ := hd
      rw [updateAnglesList] at hit
      rcases List.mem_cons.mp hit with hit | hit
      · rw [hit, updateAnglesItem, Item.angle]
        exact hall a (List.mem_cons.mpr (Or.inl rfl))
      · exact ih as (by simpa using hlen)
          (fun o ho => hall o (List.mem_cons.mpr (Or.inr ho))) it hit

/-- On a successful solve every top-level item ends up with an angle. -/
theorem updateItemAngles_top_angles (items : List Item) (pa : Option ℚ)
    (h : (updateItemAngles items pa).1 = true) :
    ∀ it ∈ (updateItemAngles items pa).2, it.angle.isSome = true := by
  have hs : (solveLevel (items.map Item.angle) pa).1 = true := by
    rw [← updateItemAngles_fst]
    exact h
  unfold updateItemAngles
  simp only [hs, if_true]
  exact updateAnglesList_angle_isSome items _
    (by rw [solveLevel_snd_length, List.length_map]) (solveLevel_snd_all_isSome _ _ hs)

mutual
theorem updateIDsItem_allIDs (it : Item) (nid : String) :
    allIDsSetItem (updateIDsItem it nid) = true := by
  match it with
  | Item.mk n ic an idOpt children =>
    rw [updateIDsItem, allIDsSetItem]
    simp [updateIDsList_allIDs children (some nid) 0]

theorem updateIDsList_allIDs (items : List Item) (pid : Option String) (i : ℕ) :
    allIDsSetList (updateIDsList items pid i) = true := by
  match items with
  | [] => rfl
  | it :: rest =>
    rw [updateIDsList]
    rw [allIDsSetList]
    simp [updateIDsItem_allIDs it, updateIDsList_allIDs rest pid (i + 1)]
end

theorem updateIDsList_map_angle : ∀ (items : List Item) (pid : Option String) (i : ℕ),
    (updateIDsList items pid i).map Item.angle = items.map Item.angle := by
  intro items
  induction items with
  | nil => intro pid i; rfl
  | cons hd tl ih =>
    intro pid i
    obtain ⟨n, ic, an, idOpt, ch⟩ := hd
    rw [updateIDsList]
    simp only [List.map_cons, updateIDsItem, Item.angle, ih]

theorem updateIDsList_angle_isSome (items : List Item) (pid : Option String) (i : ℕ)
    (h : ∀ it ∈ items, it.angle.isSome = true) :
    ∀ it ∈ updateIDsList items pid i, it.angle.isSome = true := by
  intro it hit
  have hmem : it.angle ∈ (updateIDsList items pid i).map Item.angle :=
    List.mem_map_of_mem _ hit
  rw [updateIDsList_map_angle] at hmem
  obtain ⟨it2, hit2, heq⟩ := List.mem_map.mp hmem
  rw [← heq]
  exact h it2 hit2

theorem option_keep_getD {α : Type} (o : Option α) (d : α) :
    (match o with | none => some d | some s => some s) = some (o.getD d) := by
  cases o <;> rfl

/-- Claim C10, amended: every show request that passes the AlreadyActive and
root-children checks mutates the caller-supplied structure in place: name and
icon receive defaults when absent and the root angle is overwritten with 0;
when top-level angle solving also succeeds, the root id is overwritten with
"/", every descendant carries an id, and every top-level child carries a
solved angle (deeper levels receive solved angles only when their own fixed
angles validate, see claim C4). -/
theorem show_mutates_structure (st : DaemonState) (mid : String) (struct : Item)
    (pm g : Bool)
    (h1 : menuIDTruthy st.menuID = false)
    (h2 : ¬struct.children.length = 0) :
    ((showMenu st mid struct pm g).2.2).name = some (struct.name.getD "root") ∧
    ((showMenu st mid struct pm g).2.2).icon = some (struct.icon.getD "image-missing") ∧
    ((showMenu st mid struct pm g).2.2).angle = some 0 ∧
    ((showMenu st mid struct pm g).1 = ShowResult.success mid →
      ((showMenu st mid struct pm g).2.2).id = some "/" ∧
      allIDsSetList (((showMenu st mid struct pm g).2.2).children) = true ∧
      ∀ it ∈ ((showMenu st mid struct pm g).2.2).children, it.angle.isSome = true) := by
  obtain ⟨sn, si, sa, sid, sc⟩ := struct
  simp only [Item.children] at h2
  by_cases h3 : (updateItemAngles sc none).1 = false
  · refine ⟨?_, ?_, ?_, ?_⟩
    · cases sn <;>
        simp [showMenu, h1, h2, h3, Item.name, Item.icon, Item.angle, Item.children]
    · cases si <;>
        simp [showMenu, h1, h2, h3, Item.name, Item.icon, Item.angle, Item.children]
    · simp [showMenu, h1, h2, h3, Item.angle, Item.children]
    · simp [showMenu, h1, h2, h3, Item.children]
  · have hr : (updateItemAngles sc none).1 = true := by
      revert h3
      cases (updateItemAngles sc none).1 <;> simp
    by_cases h4 : g = false
    · refine ⟨?_, ?_, ?_, ?_⟩
      · cases sn <;>
          simp [showMenu, h1, h2, hr, h4, Item.name, Item.icon, Item.angle, Item.children]
      · cases si <;>
          simp [showMenu, h1, h2, hr, h4, Item.name, Item.icon, Item.angle, Item.children]
      · simp [showMenu, h1, h2, hr, h4, Item.angle, Item.children]
      · simp [showMenu, h1, h2, hr, h4, Item.children]
    · have hg : g = true := by
        revert h4
        cases g <;> simp
      refine ⟨?_, ?_, ?_, fun _ => ⟨?_, ?_, ?_⟩⟩
      · cases sn <;>
          simp [showMenu, h1, h2, hr, hg, Item.name, Item.icon, Item.angle, Item.children]
      · cases si <;>
          simp [showMenu, h1, h2, hr, hg, Item.name, Item.icon, Item.angle, Item.children]
      · simp [showMenu, h1, h2, hr, hg, Item.angle, Item.children]
      · simp [showMenu, h1, h2, hr, hg, Item.id, Item.children]
      · simp [showMenu, h1, h2, hr, hg, Item.children, updateIDsList_allIDs]
      · have hangles := updateIDsList_angle_isSome ((updateItemAngles sc none).2) none 0
          (updateItemAngles_top_angles sc none hr)
        simpa [showMenu, h1, h2, hr, hg, Item.children] using hangles

theorem show_mutates_structure_witness :
    (showMenu idleState "w10" structW10 false true).1 = ShowResult.success "w10" ∧
    ((showMenu idleState "w10" structW10 false true).2.2).name
      = some (structW10.name.getD "root") ∧
    ((showMenu idleState "w10" structW10 false true).2.2).angle = some 0 ∧
    ((showMenu idleState "w10" structW10 false true).1 = ShowResult.success "w10" →
      allIDsSetList (((showMenu idleState "w10" structW10 false true).2.2).children)
        = true) :=
  ⟨by decide,
   (show_mutates_structure idleState "w10" structW10 false true rfl (by decide)).1,
   (show_mutates_structure idleState "w10" structW10 false true rfl (by decide)).2.2.1,
   fun h =>
     ((show_mutates_structure idleState "w10" structW10 false true rfl
       (by decide)).2.2.2 h).2.1⟩

/-- Claim C10 as stated is false on two counts: a show request rejected by
the AlreadyActive guard mutates nothing (the name default is not applied),
and on a successful show a deeper level whose own fixed angles are invalid
keeps its supplied angle attributes, so the third grandchild ends up with no
angle at all. -/
theorem claim10_cex :
    ((showMenu witnessActiveState "x"
        (Item.mk none none none none [Item.mk none none none none []])
        false true).2.2).name = none ∧
    (showMenu idleState "c10" claim10Struct false true).1 = ShowResult.success "c10" ∧
    ((showMenu idleState "c10" claim10Struct false true).2.2).children.map
        (fun it => it.children.map Item.angle) = [[some 30, some 10, none]] := by
  refine ⟨by decide, by decide, by decide⟩

theorem show_destroy_order_witness :
    (showMenu fadingState "m5"
        (Item.mk none none none none
          [Item.mk none none (some 200) none [], Item.mk none none (some 100) none []])
        false true).1 = ShowResult.eInvalidAngles ∧
    ((showMenu fadingState "m5"
        (Item.mk none none none none
          [Item.mk none none (some 200) none [], Item.mk none none (some 100) none []])
        false true).2.1).root = none :=
  ⟨by decide,
   (show_destroy_order fadingState "m5"
     (Item.mk none none none none
       [Item.mk none none (some 200) none [], Item.mk none none (some 100) none []])
     false true).1 (by decide)⟩

